import Mathlib

/-!
Shallow embedding of the linkedin-monitor discovery/dedup/capture pipeline
(`src/config.py`, `src/search.py`, `src/screenshot.py`).

Python strings are modelled as `List Char` (`Str`); Python dicts that are
built by key assignment are modelled as association lists with upsert
semantics, preserving insertion order like CPython dicts.  The external
search provider (SerpAPI) and the headless browser are modelled as oracle
functions supplied as parameters: the provider maps the request parameters
to either a raised exception (`Except.error`) or the list of raw organic
hits; the browser maps a URL to the outcomes of the failable steps of one
capture session.  The wall clock (`datetime.utcnow().isoformat()`) is a
`now` parameter.
-/

/-- Python `str`, modelled as a list of characters. -/
abbrev Str := List Char

/-- Python's substring test `needle in haystack`. -/
def strContains (haystack needle : Str) : Bool :=
  decide (needle <:+: haystack)

/-- The literal `"linkedin.com"` used by the domain checks in `search.py`. -/
def linkedinDomain : Str := "linkedin.com".toList

/-- `config.py`, `KEYWORD_CATEGORIES`: keywords grouped by category, each
category one search query.  Insertion order of the Python dict literal is
kept as list order. -/
def KEYWORD_CATEGORIES : List (Str × List Str) :=
  [ ("Cell/Battery Tester".toList,
      [ "Battery Tester".toList
      , "Battery Cycler".toList
      , "Battery Capacity Tester".toList
      , "Battery Aging Machine".toList
      , "Battery Charger-Discharger".toList
      , "Computer Operated Battery Cycler".toList
      , "Computer Operated Battery Tester".toList
      , "Cell Tester".toList
      , "Cell Cycler".toList
      , "Cell Capacity Tester".toList
      , "Cell Aging Machine".toList
      , "Cell Charger Discharger".toList
      , "Computer Operated Cell Cycler".toList
      , "Computer Operated Cell Tester".toList
      , "Cell Grading Machine".toList ])
  , ("BESS".toList,
      [ "BESS".toList
      , "Battery Energy Storage System".toList
      , "GWH battery".toList
      , "Battery Pack Assembly Plant".toList
      , "BESS Manufacturing Plant".toList
      , "Power Conversion System".toList
      , "PCS battery".toList
      , "C&I BESS".toList
      , "C&I ESS".toList
      , "ESS for Data Centers".toList ])
  , ("Cell Assembly Line".toList,
      [ "Lithium ion cell assembly line".toList
      , "Battery cell manufacturing".toList
      , "Pouch cell line".toList
      , "Cylindrical cell line".toList
      , "Prismatic cell assembly".toList
      , "Battery formation ageing".toList
      , "Cell formation system".toList
      , "Formation testing equipment".toList
      , "Environmental chamber battery".toList
      , "Advanced chemistry cell manufacturing".toList
      , "Cell Manufacturing Plant".toList ])
  , ("Cell Chemistries".toList,
      [ "Sodium Ion battery".toList
      , "Metal Air battery".toList
      , "Aluminum Air battery".toList
      , "Sodium Silicate battery".toList
      , "Agnostic Chemistry battery".toList
      , "Lead Acid battery".toList
      , "Ni Cd battery".toList
      , "Nickel Cadmium battery".toList ])
  , ("Competition".toList,
      [ "RePower battery".toList
      , "Neware battery".toList
      , "Chroma battery tester".toList
      , "Bitrode battery".toList
      , "Arbin battery".toList
      , "ACEY battery".toList
      , "Sinexcel".toList
      , "Nebula Electronics battery".toList
      , "SEMCO battery".toList
      , "DNA Technologies battery".toList
      , "Encore Systems battery".toList
      , "Indygreen Technologies".toList ])
  ]

/-- `config.py`, `SearchConfig` dataclass.  `serpapi_key` is read from the
environment in the source (empty string when unset); here it is a plain
field. -/
structure SearchConfig where
  serpapi_key : Str
  max_results_per_category : Nat
  recency_days : Nat
  time_filter : Str
  site_filter : Str

/-- `config.py`, `ScreenshotConfig` dataclass. -/
structure ScreenshotConfig where
  viewport_width : Nat
  viewport_height : Nat
  wait_seconds : Nat
  timeout_seconds : Nat
  output_dir : Str

/-- `config.py`, `build_search_query`: quote every keyword, join with
`" OR "`, wrap in parentheses and append the literal site-restriction
clause.  The `category` parameter is unused by the source body. -/
def build_search_query (category : Str) (keywords : List Str) : Str :=
  let quoted := keywords.map (fun kw => '"' :: (kw ++ ['"']))
  let keyword_clause := List.intercalate " OR ".toList quoted
  ('(' :: keyword_clause) ++ ") (site:linkedin.com/posts OR site:linkedin.com/feed/update)".toList

/-- The site-restriction clause literal that `build_search_query` appends. -/
def siteClause : Str :=
  "(site:linkedin.com/posts OR site:linkedin.com/feed/update)".toList

/-- `search.py`, `SearchResult` dataclass.  In the source, equality and
hashing are by `url` alone; here structural equality is used and the
url-identity convention shows up in the dedup code, which compares urls. -/
structure SearchResult where
  title : Str
  url : Str
  snippet : Str
  category : Str
  found_at : Str
deriving DecidableEq, Repr

/-- One raw organic hit from the provider response: the `item.get(...)`
fields `search.py` reads, each possibly missing. -/
structure RawHit where
  link : Option Str
  title : Option Str
  snippet : Option Str

/-- The request parameter dict `search.py` builds and hands to
`GoogleSearch`. -/
structure SearchParams where
  engine : Str
  q : Str
  api_key : Str
  num : Nat
  tbs : Str
  hl : Str
  gl : Str

/-- The external search provider boundary: from request parameters to
either a raised exception (`error`) or the `organic_results` list of the
response (missing key already defaulted to `[]`). -/
abbrev Provider := SearchParams → Except Str (List RawHit)

/-- `search.py`, `_clean_linkedin_url`: when the url contains
`"linkedin.com"`, keep only the part before the first `'?'`
(`url.split("?")[0]`); otherwise return it unchanged. -/
def clean_linkedin_url (url : Str) : Str :=
  if strContains url linkedinDomain then
    url.takeWhile (fun c => c ≠ '?')
  else
    url

/-- The parameter dict built in `search.py`, `search_category`, lines
72-80. -/
def mkSearchParams (query : Str) (config : SearchConfig) : SearchParams :=
  { engine := "google".toList
  , q := query
  , api_key := config.serpapi_key
  , num := config.max_results_per_category
  , tbs := config.time_filter
  , hl := "en".toList
  , gl := "in".toList }

/-- The per-hit body of the parse loop in `search_category`, lines 93-106:
clean the link, skip the hit when the cleaned url does not contain
`"linkedin.com"`, otherwise build a `SearchResult` with defaulted
title/snippet. -/
def parseHit (category now : Str) (item : RawHit) : Option SearchResult :=
  let url := clean_linkedin_url (item.link.getD [])
  if strContains url linkedinDomain then
    some { title := item.title.getD "Untitled Post".toList
         , url := url
         , snippet := item.snippet.getD []
         , category := category
         , found_at := now }
  else
    none

/-- `search.py`, `search_category`: build the query and parameters, call
the provider; on a raised exception return `[]`, otherwise parse the
organic hits in order. -/
def search_category (provider : Provider) (now : Str)
    (category : Str) (keywords : List Str) (config : SearchConfig) :
    List SearchResult :=
  let query := build_search_query category keywords
  let params := mkSearchParams query config
  match provider params with
  | .error _ => []
  | .ok organic => organic.filterMap (parseHit category now)

/-- Assignment `d[k] = v` on a CPython dict modelled as an association
list: update the value in place when the key is present, else append. -/
def dictInsert (k : Str) (v : α) (d : List (Str × α)) : List (Str × α) :=
  if d.any (fun p => p.1 == k) then
    d.map (fun p => if p.1 == k then (k, v) else p)
  else
    d ++ [(k, v)]

/-- The dedup loop of `search_all_categories`, lines 149-153: walk the
category's results, keep a result whose url is not in `seen` and add its
url to `seen`; return the kept results (in order) and the grown seen set
(modelled as a list with membership). -/
def dedupResults (seen : List Str) : List SearchResult → List SearchResult × List Str
  | [] => ([], seen)
  | r :: rs =>
    if seen.contains r.url then
      dedupResults seen rs
    else
      let p := dedupResults (r.url :: seen) rs
      (r :: p.1, p.2)

/-- `KEYWORD_CATEGORIES` lookup: `cat_name in KEYWORD_CATEGORIES` /
`KEYWORD_CATEGORIES[cat_name]`. -/
def lookupCat (cat_name : Str) : Option (List Str) :=
  (KEYWORD_CATEGORIES.find? (fun p => p.1 == cat_name)).map (fun p => p.2)

/-- The category loop of `search_all_categories`, lines 140-159: skip
unknown categories, search known ones, dedup against the running seen set,
store the deduped list in the results dict under the category name. -/
def runCategories (provider : Provider) (now : Str) (config : SearchConfig) :
    List Str → List (Str × List SearchResult) → List Str →
    List (Str × List SearchResult)
  | [], all_results, _ => all_results
  | cat_name :: rest, all_results, seen_urls =>
    match lookupCat cat_name with
    | none => runCategories provider now config rest all_results seen_urls
    | some keywords =>
      let results := search_category provider now cat_name keywords config
      let p := dedupResults seen_urls results
      runCategories provider now config rest
        (dictInsert cat_name p.1 all_results) p.2

/-- Resolution of the target category list, line 135:
`categories or list(KEYWORD_CATEGORIES.keys())` — `None` and the empty
list are both falsy, so both fall back to all configured categories. -/
def resolveTargets (categories : Option (List Str)) : List Str :=
  match categories with
  | some cats => if cats.isEmpty then KEYWORD_CATEGORIES.map (fun p => p.1) else cats
  | none => KEYWORD_CATEGORIES.map (fun p => p.1)

/-- `search.py`, `search_all_categories`: fail fast with an empty dict when
the API key is empty (falsy), otherwise run the category loop with an
empty results dict and an empty seen set. -/
def search_all_categories (provider : Provider) (now : Str)
    (config : SearchConfig) (categories : Option (List Str)) :
    List (Str × List SearchResult) :=
  if config.serpapi_key.isEmpty then []
  else runCategories provider now config (resolveTargets categories) [] []

/-- Total number of results in a ResultSet
(`sum(len(v) for v in all_results.values())`). -/
def totalResults (res : List (Str × List SearchResult)) : Nat :=
  (res.map (fun p => p.2.length)).sum

/-- The result list stored under a category name, `[]` when the category
has no entry. -/
def resLookup (res : List (Str × List SearchResult)) (c : Str) :
    List SearchResult :=
  ((res.find? (fun p => p.1 == c)).map (fun p => p.2)).getD []

/-- Whether some result in the list has the given url. -/
def hasUrl (rs : List SearchResult) (u : Str) : Bool :=
  rs.any (fun r => r.url == u)

/-- The raw (pre-dedup) result list a run obtains for one category name:
empty for unknown categories, otherwise the `search_category` output. -/
def rawFor (provider : Provider) (now : Str) (config : SearchConfig)
    (cat_name : Str) : List SearchResult :=
  match lookupCat cat_name with
  | none => []
  | some keywords => search_category provider now cat_name keywords config

/-- The category loop without the dict-upsert accumulator; equal to
`runCategories` started from an empty dict when the target names are
distinct (proved below), and structured for induction. -/
def runSimple (provider : Provider) (now : Str) (config : SearchConfig) :
    List Str → List Str → List (Str × List SearchResult)
  | [], _ => []
  | cat_name :: rest, seen_urls =>
    match lookupCat cat_name with
    | none => runSimple provider now config rest seen_urls
    | some keywords =>
      let p := dedupResults seen_urls
        (search_category provider now cat_name keywords config)
      (cat_name, p.1) :: runSimple provider now config rest p.2

/-- Outcomes of the failable steps of one headless-browser capture
session in `screenshot.py`, `capture_screenshot`: launching the
browser/context/page, navigating (`page.goto`, bounded by the timeout),
probing/clicking the popup-dismissal selectors (wrapped in the inner
`try`), and taking the screenshot / closing the browser.  `error` models a
raised exception at that step. -/
structure BrowserRun where
  launch : Except Str Unit
  goto : Except Str Unit
  dismissal : Except Str Unit
  shot : Except Str Unit

/-- Whether a step outcome is a raised exception. -/
def stepFails : Except Str Unit → Bool
  | .error _ => true
  | .ok _ => false

/-- `screenshot.py`, `capture_screenshot`: the whole body is inside one
`try`; any raised step exception reaches the outer `except` and yields
`False`, except a dismissal-step exception, which is swallowed by the
inner `try/except: pass` (the `dismissal` outcome is therefore ignored).
Success of launch, navigation and screenshot yields `True`. -/
def capture_screenshot (run : BrowserRun) (url : Str) (output_path : Str)
    (config : ScreenshotConfig) : Bool :=
  match run.launch with
  | .error _ => false
  | .ok _ =>
    match run.goto with
    | .error _ => false
    | .ok _ =>
      match run.shot with
      | .error _ => false
      | .ok _ => true

/-- Zero-padded decimal rendering `f"{n:03d}"`. -/
def pad3 (n : Nat) : Str :=
  let s := Nat.toDigits 10 n
  if 3 ≤ s.length then s else List.replicate (3 - s.length) '0' ++ s

/-- `os.path.join(dir, name)` for the relative file names built here
(`name` never starts with a separator). -/
def pathJoin (dir name : Str) : Str :=
  if dir.isEmpty then name
  else if dir.getLast? = some '/' then dir ++ name
  else dir ++ '/' :: name

/-- The nested loop of `capture_all_screenshots`, lines 113-122, flattened
over the posts of all categories in ResultSet order: increment the
counter, build `post_{idx:03d}.png` under the output directory, capture,
and store path-on-success / `None`-on-failure in the screenshots dict. -/
def captureLoop (oracle : Str → BrowserRun) (config : ScreenshotConfig) :
    List SearchResult → Nat → List (Str × Option Str) →
    List (Str × Option Str)
  | [], _, screenshots => screenshots
  | post :: rest, idx, screenshots =>
    let output_path := pathJoin config.output_dir
      ("post_".toList ++ pad3 (idx + 1) ++ ".png".toList)
    let success := capture_screenshot (oracle post.url) post.url output_path config
    captureLoop oracle config rest (idx + 1)
      (dictInsert post.url (if success then some output_path else none) screenshots)

/-- All posts of a ResultSet in iteration order (`results.items()` then the
posts of each category). -/
def flatPosts (results : List (Str × List SearchResult)) : List SearchResult :=
  (results.map (fun p => p.2)).flatten

/-- The urls of all posts of a ResultSet in iteration order. -/
def flatUrls (results : List (Str × List SearchResult)) : List Str :=
  (flatPosts results).map (fun r => r.url)

/-- `screenshot.py`, `capture_all_screenshots`: run the capture loop over
every post of every category with the counter at 0 and an empty
screenshots dict.  The `os.makedirs` call is filesystem I/O with no
bearing on the returned mapping. -/
def capture_all_screenshots (oracle : Str → BrowserRun)
    (results : List (Str × List SearchResult)) (config : ScreenshotConfig) :
    List (Str × Option Str) :=
  captureLoop oracle config (flatPosts results) 0 []

/-- The output path assigned to the post at 0-based flattened position
`i`: `os.path.join(output_dir, f"post_{i+1:03d}.png")`. -/
def capturePath (config : ScreenshotConfig) (i : Nat) : Str :=
  pathJoin config.output_dir ("post_".toList ++ pad3 (i + 1) ++ ".png".toList)

/-- The entry recorded for a url in the CaptureOutcome, `none` when the
url has no entry. -/
def lookupShot (out : List (Str × Option Str)) (u : Str) : Option (Option Str) :=
  (out.find? (fun p => p.1 == u)).map (fun p => p.2)

/-- The capture loop without the dict-upsert accumulator; equal to
`captureLoop` started from an empty dict when the flattened urls are
distinct (proved below), and structured for induction. -/
def captureSpec (oracle : Str → BrowserRun) (config : ScreenshotConfig) :
    List SearchResult → Nat → List (Str × Option Str)
  | [], _ => []
  | post :: rest, idx =>
    (post.url,
      if capture_screenshot (oracle post.url) post.url (capturePath config idx) config
      then some (capturePath config idx) else none)
      :: captureSpec oracle config rest (idx + 1)

/-! ### Concrete fixtures for witnesses and counterexamples -/

/-- A raw provider hit whose link is a linkedin post url with a tracking
query string. -/
def cHit : RawHit :=
  { link := some "https://linkedin.com/posts/abc?utm=1".toList
  , title := some "T".toList
  , snippet := none }

/-- A second raw hit with a different linkedin post url. -/
def cHit2 : RawHit :=
  { link := some "https://linkedin.com/posts/xyz".toList
  , title := none
  , snippet := some "S".toList }

/-- A provider that answers every request with the same duplicated hit. -/
def cProvDup : Provider := fun _ => .ok [cHit, cHit]

/-- A provider that answers every request with two distinct hits. -/
def cProv2 : Provider := fun _ => .ok [cHit, cHit2]

/-- A provider that raises on every request. -/
def cProvFail : Provider := fun _ => .error "boom".toList

/-- A search configuration with a non-empty API key. -/
def cCfg : SearchConfig :=
  { serpapi_key := "k".toList
  , max_results_per_category := 10
  , recency_days := 7
  , time_filter := "qdr:w".toList
  , site_filter := "site:linkedin.com/posts OR site:linkedin.com/feed/update".toList }

/-- A search configuration whose API key is the empty string (unset
environment variable). -/
def cCfgNoKey : SearchConfig :=
  { cCfg with serpapi_key := [] }

/-- A screenshot configuration fixture. -/
def cShotCfg : ScreenshotConfig :=
  { viewport_width := 1280
  , viewport_height := 900
  , wait_seconds := 5
  , timeout_seconds := 30
  , output_dir := "shots".toList }

/-- A browser oracle: navigation times out on the `abc` post url,
every step succeeds elsewhere. -/
def cOracle : Str → BrowserRun := fun url =>
  if url == "https://linkedin.com/posts/abc".toList then
    { launch := .ok (), goto := .error "Timeout 30000ms exceeded".toList
    , dismissal := .ok (), shot := .ok () }
  else
    { launch := .ok (), goto := .ok ()
    , dismissal := .error "selector".toList, shot := .ok () }

/-- The `SearchResult` that `search_category` parses out of `cHit`. -/
def cR1 : SearchResult :=
  { title := "T".toList
  , url := "https://linkedin.com/posts/abc".toList
  , snippet := []
  , category := "BESS".toList
  , found_at := "now".toList }

/-- A browser oracle that succeeds everywhere and agrees with `cOracle`
away from the `abc` post url. -/
def cOracle2 : Str → BrowserRun := fun url =>
  if url == "https://linkedin.com/posts/abc".toList then
    { launch := .ok (), goto := .ok (), dismissal := .ok (), shot := .ok () }
  else cOracle url

/-- A two-category ResultSet fixture with one post in each category. -/
def cResults : List (Str × List SearchResult) :=
  [ ("BESS".toList,
      [ { title := "T".toList
        , url := "https://linkedin.com/posts/abc".toList
        , snippet := []
        , category := "BESS".toList
        , found_at := "now".toList } ])
  , ("Competition".toList,
      [ { title := "U".toList
        , url := "https://linkedin.com/posts/xyz".toList
        , snippet := "S".toList
        , category := "Competition".toList
        , found_at := "now".toList } ]) ]

/-! ### Lemmas about the query builder -/

theorem intercalate_cons_cons (sep a b : Str) (tl : List Str) :
    List.intercalate sep (a :: b :: tl)
      = a ++ sep ++ List.intercalate sep (b :: tl) := by
  simp [List.intercalate, List.intersperse_cons_cons, List.append_assoc]

theorem infix_intercalate_of_mem (sep : Str) :
    ∀ (xs : List Str) (x : Str), x ∈ xs → x <:+: List.intercalate sep xs
  | a :: tl, x, h => by
    rcases List.mem_cons.mp h with rfl | hx
    · cases tl with
      | nil => simp [List.intercalate]
      | cons b tl2 =>
        rw [intercalate_cons_cons]
        exact ⟨[], sep ++ List.intercalate sep (b :: tl2), by
          simp [List.append_assoc]⟩
    · cases tl with
      | nil => cases hx
      | cons b tl2 =>
        obtain ⟨s, t, hst⟩ := infix_intercalate_of_mem sep (b :: tl2) x hx
        rw [intercalate_cons_cons]
        exact ⟨(a ++ sep) ++ s, t, by simp [← hst, List.append_assoc]⟩

/-- `build_search_query` written as explicit appends. -/
theorem build_search_query_eq (category : Str) (keywords : List Str) :
    build_search_query category keywords
      = ('(' :: List.intercalate " OR ".toList
            (keywords.map (fun kw => '"' :: (kw ++ ['"']))))
          ++ ([')', ' '] ++ siteClause) := by
  simp [build_search_query, siteClause]

theorem quoted_infix_query (category kw : Str) (keywords : List Str)
    (hkw : kw ∈ keywords) :
    ('"' :: (kw ++ ['"'])) <:+: build_search_query category keywords := by
  obtain ⟨s, t, hst⟩ :=
    infix_intercalate_of_mem " OR ".toList
      (keywords.map (fun kw => '"' :: (kw ++ ['"']))) ('"' :: (kw ++ ['"']))
      (List.mem_map.mpr ⟨kw, hkw, rfl⟩)
  rw [build_search_query_eq, ← hst]
  exact ⟨'(' :: s, t ++ ([')', ' '] ++ siteClause), by simp [List.append_assoc]⟩

theorem site_clause_infix_query (category : Str) (keywords : List Str) :
    siteClause <:+: build_search_query category keywords := by
  rw [build_search_query_eq]
  exact ⟨('(' :: List.intercalate " OR ".toList
      (keywords.map (fun kw => '"' :: (kw ++ ['"'])))) ++ [')', ' '], [],
    by simp [List.append_assoc]⟩

/-! ### Lemmas about the search run -/

theorem runCategories_site_filter (provider : Provider) (now : Str)
    (cfg : SearchConfig) (s : Str) :
    ∀ (cats : List Str) (acc : List (Str × List SearchResult)) (seen : List Str),
      runCategories provider now { cfg with site_filter := s } cats acc seen
        = runCategories provider now cfg cats acc seen
  | [], _, _ => rfl
  | c :: rest, acc, seen => by
    rw [runCategories, runCategories]
    cases h : lookupCat c with
    | none => exact runCategories_site_filter provider now cfg s rest acc seen
    | some kws => exact runCategories_site_filter provider now cfg s rest _ _

theorem hasUrl_iff_mem_map (rs : List SearchResult) (u : Str) :
    hasUrl rs u = true ↔ u ∈ rs.map (fun r => r.url) := by
  simp only [hasUrl, List.any_eq_true, List.mem_map, beq_iff_eq]

theorem hasUrl_cons (r : SearchResult) (rs : List SearchResult) (u : Str) :
    hasUrl (r :: rs) u = ((r.url == u) || hasUrl rs u) := by
  simp [hasUrl]

theorem dedupResults_nil (seen : List Str) :
    dedupResults seen [] = ([], seen) := rfl

theorem dedupResults_cons (seen : List Str) (r : SearchResult)
    (rs : List SearchResult) :
    dedupResults seen (r :: rs)
      = if seen.contains r.url then dedupResults seen rs
        else (r :: (dedupResults (r.url :: seen) rs).1,
              (dedupResults (r.url :: seen) rs).2) := rfl

/-- The urls a result of the dedup loop keeps: exactly those of the input
that are not in the incoming seen set. -/
theorem dedup_hasUrl (u : Str) :
    ∀ (seen : List Str) (rs : List SearchResult),
      hasUrl (dedupResults seen rs).1 u
        = (hasUrl rs u && !(seen.contains u))
  | _, [] => by simp [dedupResults_nil, hasUrl]
  | seen, r :: rs => by
    rw [dedupResults_cons]
    by_cases hc : seen.contains r.url = true
    · rw [if_pos hc, dedup_hasUrl u seen rs, hasUrl_cons]
      by_cases hru : r.url = u
      · have h2 : seen.contains u = true := hru ▸ hc
        rw [h2]; simp
      · have h1 : (r.url == u) = false := beq_eq_false_iff_ne.mpr hru
        rw [h1]; simp
    · rw [if_neg hc]
      have hc2 : seen.contains r.url = false := by simpa using hc
      by_cases hru : r.url = u
      · have h1 : (r.url == u) = true := beq_iff_eq.mpr hru
        have h2 : seen.contains u = false := hru ▸ hc2
        rw [hasUrl_cons, hasUrl_cons, h1, h2]; simp
      · have h1 : (r.url == u) = false := beq_eq_false_iff_ne.mpr hru
        have h3 : (r.url :: seen).contains u = seen.contains u := by
          rw [List.contains_cons]
          have h4 : (u == r.url) = false :=
            beq_eq_false_iff_ne.mpr (Ne.symm hru)
          rw [h4]; simp
        rw [hasUrl_cons, hasUrl_cons, h1,
          dedup_hasUrl u (r.url :: seen) rs, h3]
        simp

/-- The seen set after the dedup loop: the incoming seen set plus every
url of the input list. -/
theorem dedup_seen (u : Str) :
    ∀ (seen : List Str) (rs : List SearchResult),
      ((dedupResults seen rs).2).contains u
        = (seen.contains u || hasUrl rs u)
  | _, [] => by simp [dedupResults_nil, hasUrl]
  | seen, r :: rs => by
    rw [dedupResults_cons]
    by_cases hc : seen.contains r.url = true
    · rw [if_pos hc, dedup_seen u seen rs, hasUrl_cons]
      by_cases hru : r.url = u
      · have h2 : seen.contains u = true := hru ▸ hc
        rw [h2]; simp
      · have h1 : (r.url == u) = false := beq_eq_false_iff_ne.mpr hru
        rw [h1]; simp
    · rw [if_neg hc]
      have hc2 : seen.contains r.url = false := by simpa using hc
      rw [dedup_seen u (r.url :: seen) rs, hasUrl_cons, List.contains_cons]
      by_cases hru : r.url = u
      · have h1 : (r.url == u) = true := beq_iff_eq.mpr hru
        have h4 : (u == r.url) = true := beq_iff_eq.mpr hru.symm
        rw [h1, h4]; simp
      · have h1 : (r.url == u) = false := beq_eq_false_iff_ne.mpr hru
        have h4 : (u == r.url) = false :=
          beq_eq_false_iff_ne.mpr (Ne.symm hru)
        rw [h1, h4]; simp

/-- The urls kept for one category are distinct. -/
theorem dedup_nodup :
    ∀ (seen : List Str) (rs : List SearchResult),
      ((dedupResults seen rs).1.map (fun r => r.url)).Nodup
  | _, [] => by simp [dedupResults_nil]
  | seen, r :: rs => by
    rw [dedupResults_cons]
    by_cases hc : seen.contains r.url = true
    · rw [if_pos hc]
      exact dedup_nodup seen rs
    · rw [if_neg hc]
      refine List.nodup_cons.mpr ⟨?_, dedup_nodup (r.url :: seen) rs⟩
      intro hmem
      have h5 := (hasUrl_iff_mem_map _ _).mpr hmem
      rw [dedup_hasUrl] at h5
      simp at h5

theorem dictInsert_fresh (k : Str) (v : α) (d : List (Str × α))
    (h : d.any (fun p => p.1 == k) = false) :
    dictInsert k v d = d ++ [(k, v)] := by
  simp [dictInsert, h]

theorem runCategories_nil (provider : Provider) (now : Str)
    (cfg : SearchConfig) (acc : List (Str × List SearchResult))
    (seen : List Str) :
    runCategories provider now cfg [] acc seen = acc := rfl

theorem runCategories_cons_unknown (provider : Provider) (now : Str)
    (cfg : SearchConfig) (c : Str) (rest : List Str)
    (acc : List (Str × List SearchResult)) (seen : List Str)
    (h : lookupCat c = none) :
    runCategories provider now cfg (c :: rest) acc seen
      = runCategories provider now cfg rest acc seen := by
  rw [runCategories, h]

theorem runCategories_cons_known (provider : Provider) (now : Str)
    (cfg : SearchConfig) (c : Str) (rest : List Str)
    (acc : List (Str × List SearchResult)) (seen : List Str)
    (kws : List Str) (h : lookupCat c = some kws) :
    runCategories provider now cfg (c :: rest) acc seen
      = runCategories provider now cfg rest
          (dictInsert c
            (dedupResults seen (search_category provider now c kws cfg)).1 acc)
          (dedupResults seen (search_category provider now c kws cfg)).2 := by
  rw [runCategories, h]

theorem runSimple_nil (provider : Provider) (now : Str)
    (cfg : SearchConfig) (seen : List Str) :
    runSimple provider now cfg [] seen = [] := rfl

theorem runSimple_cons_unknown (provider : Provider) (now : Str)
    (cfg : SearchConfig) (c : Str) (rest : List Str) (seen : List Str)
    (h : lookupCat c = none) :
    runSimple provider now cfg (c :: rest) seen
      = runSimple provider now cfg rest seen := by
  rw [runSimple, h]

theorem runSimple_cons_known (provider : Provider) (now : Str)
    (cfg : SearchConfig) (c : Str) (rest : List Str) (seen : List Str)
    (kws : List Str) (h : lookupCat c = some kws) :
    runSimple provider now cfg (c :: rest) seen
      = (c, (dedupResults seen (search_category provider now c kws cfg)).1)
          :: runSimple provider now cfg rest
              (dedupResults seen (search_category provider now c kws cfg)).2 := by
  rw [runSimple, h]

/-- With pairwise-distinct target names and a results dict none of them
occurs in, the category loop appends its per-category entries to the
dict. -/
theorem runCategories_append (provider : Provider) (now : Str)
    (cfg : SearchConfig) :
    ∀ (cats : List Str) (acc : List (Str × List SearchResult)) (seen : List Str),
      cats.Nodup →
      (∀ c ∈ cats, acc.any (fun p => p.1 == c) = false) →
      runCategories provider now cfg cats acc seen
        = acc ++ runSimple provider now cfg cats seen
  | [], acc, seen, _, _ => by
    rw [runCategories_nil, runSimple_nil, List.append_nil]
  | c :: rest, acc, seen, hnd, hfresh => by
    obtain ⟨hc, hrest⟩ := List.nodup_cons.mp hnd
    cases h : lookupCat c with
    | none =>
      rw [runCategories_cons_unknown provider now cfg c rest acc seen h,
        runSimple_cons_unknown provider now cfg c rest seen h]
      exact runCategories_append provider now cfg rest acc seen hrest
        (fun c' hc' => hfresh c' (List.mem_cons_of_mem c hc'))
    | some kws =>
      rw [runCategories_cons_known provider now cfg c rest acc seen kws h,
        runSimple_cons_known provider now cfg c rest seen kws h,
        dictInsert_fresh c _ acc (hfresh c (List.mem_cons_self c rest)),
        runCategories_append provider now cfg rest _ _ hrest ?_]
      · simp [List.append_assoc]
      · intro c' hc'
        have h1 : acc.any (fun p => p.1 == c') = false :=
          hfresh c' (List.mem_cons_of_mem c hc')
        have h2 : ¬ (c = c') := fun he => hc (he ▸ hc')
        simp [h1, h2]

/-- The keys of the loop's result dict: the known target categories, in
order. -/
theorem runSimple_keys (provider : Provider) (now : Str) (cfg : SearchConfig) :
    ∀ (cats : List Str) (seen : List Str),
      (runSimple provider now cfg cats seen).map (fun p => p.1)
        = cats.filter (fun c => (lookupCat c).isSome)
  | [], _ => by simp [runSimple_nil]
  | c :: rest, seen => by
    cases h : lookupCat c with
    | none =>
      rw [runSimple_cons_unknown provider now cfg c rest seen h,
        runSimple_keys provider now cfg rest seen]
      simp [List.filter_cons, h]
    | some kws =>
      rw [runSimple_cons_known provider now cfg c rest seen kws h]
      simp only [List.map_cons, runSimple_keys provider now cfg rest _]
      simp [List.filter_cons, h]

theorem rawFor_unknown (provider : Provider) (now : Str) (cfg : SearchConfig)
    (c : Str) (h : lookupCat c = none) :
    rawFor provider now cfg c = [] := by
  rw [rawFor, h]

theorem rawFor_known (provider : Provider) (now : Str) (cfg : SearchConfig)
    (c : Str) (kws : List Str) (h : lookupCat c = some kws) :
    rawFor provider now cfg c = search_category provider now c kws cfg := by
  rw [rawFor, h]

theorem resLookup_nil (c : Str) : resLookup [] c = [] := rfl

theorem resLookup_cons_self (a : Str) (l : List SearchResult)
    (rest : List (Str × List SearchResult)) :
    resLookup ((a, l) :: rest) a = l := by
  have hf : List.find? (fun p => p.1 == a) ((a, l) :: rest) = some (a, l) :=
    List.find?_cons_of_pos
      (p := fun q : Str × List SearchResult => q.1 == a) _ (by simp)
  rw [resLookup, hf]
  rfl

theorem resLookup_cons_ne (a c : Str) (l : List SearchResult)
    (rest : List (Str × List SearchResult)) (h : ¬ a = c) :
    resLookup ((a, l) :: rest) c = resLookup rest c := by
  rw [resLookup, List.find?_cons_of_neg _ (by simp [h]), resLookup]

theorem resLookup_not_key (res : List (Str × List SearchResult)) (c : Str)
    (h : ∀ p ∈ res, ¬ p.1 = c) :
    resLookup res c = [] := by
  rw [resLookup, List.find?_eq_none.mpr (fun p hp => by simp [h p hp])]
  rfl

theorem resLookup_runSimple_not_mem (provider : Provider) (now : Str)
    (cfg : SearchConfig) (cats : List Str) (seen : List Str) (c : Str)
    (h : c ∉ cats) :
    resLookup (runSimple provider now cfg cats seen) c = [] := by
  apply resLookup_not_key
  intro p hp heq
  have hk : p.1 ∈ (runSimple provider now cfg cats seen).map (fun p => p.1) :=
    List.mem_map.mpr ⟨p, hp, rfl⟩
  rw [runSimple_keys] at hk
  exact h (heq ▸ List.mem_of_mem_filter hk)

/-- A run over target names none of which is configured leaves the
results dict unchanged. -/
theorem runCategories_all_unknown (provider : Provider) (now : Str)
    (cfg : SearchConfig) :
    ∀ (cats : List Str) (acc : List (Str × List SearchResult)) (seen : List Str),
      (∀ c ∈ cats, lookupCat c = none) →
      runCategories provider now cfg cats acc seen = acc
  | [], acc, _, _ => rfl
  | c :: rest, acc, seen, hunk => by
    rw [runCategories_cons_unknown provider now cfg c rest acc seen
      (hunk c (List.mem_cons_self c rest))]
    exact runCategories_all_unknown provider now cfg rest acc seen
      (fun c' hc' => hunk c' (List.mem_cons_of_mem c hc'))

/-- A url already in the seen set is never kept by any later category. -/
theorem runSimple_seen_kills (provider : Provider) (now : Str)
    (cfg : SearchConfig) (u : Str) :
    ∀ (cats : List Str) (seen : List Str), seen.contains u = true →
      ∀ c, hasUrl (resLookup (runSimple provider now cfg cats seen) c) u = false
  | [], _, _, c => by simp [runSimple_nil, resLookup_nil, hasUrl]
  | c0 :: rest, seen, hs, c => by
    cases h : lookupCat c0 with
    | none =>
      rw [runSimple_cons_unknown provider now cfg c0 rest seen h]
      exact runSimple_seen_kills provider now cfg u rest seen hs c
    | some kws =>
      rw [runSimple_cons_known provider now cfg c0 rest seen kws h]
      by_cases hc : c0 = c
      · subst hc
        rw [resLookup_cons_self, dedup_hasUrl, hs]
        simp
      · rw [resLookup_cons_ne c0 c _ _ hc]
        apply runSimple_seen_kills provider now cfg u rest _ _ c
        rw [dedup_seen, hs]
        simp

/-- First occurrence wins: when `cf` is the first category of `cats` whose
raw result list surfaces `u` (and `u` is not already seen), the loop keeps
`u` in `cf`'s list and in no other. -/
theorem runSimple_first_wins (provider : Provider) (now : Str)
    (cfg : SearchConfig) (u : Str) :
    ∀ (cats : List Str) (seen : List Str) (cf : Str),
      cats.Nodup → seen.contains u = false →
      cats.find? (fun c => hasUrl (rawFor provider now cfg c) u) = some cf →
      hasUrl (resLookup (runSimple provider now cfg cats seen) cf) u = true
      ∧ ∀ c, ¬ c = cf →
          hasUrl (resLookup (runSimple provider now cfg cats seen) c) u = false
  | [], _, cf, _, _, hfind => by simp [List.find?] at hfind
  | c0 :: rest, seen, cf, hnd, hseen, hfind => by
    obtain ⟨hc0, hrest⟩ := List.nodup_cons.mp hnd
    by_cases hp : hasUrl (rawFor provider now cfg c0) u = true
    · have hcf : cf = c0 := by
        rw [List.find?_cons_of_pos
          (p := fun c => hasUrl (rawFor provider now cfg c) u) _ hp] at hfind
        exact (Option.some.inj hfind).symm
      subst hcf
      cases h : lookupCat cf with
      | none =>
        rw [rawFor_unknown provider now cfg cf h] at hp
        simp [hasUrl] at hp
      | some kws =>
        rw [runSimple_cons_known provider now cfg cf rest seen kws h]
        rw [rawFor_known provider now cfg cf kws h] at hp
        constructor
        · rw [resLookup_cons_self, dedup_hasUrl, hp, hseen]
          rfl
        · intro c hne
          rw [resLookup_cons_ne cf c _ _ (fun he => hne he.symm)]
          apply runSimple_seen_kills provider now cfg u rest _ _ c
          rw [dedup_seen, hseen, hp]
          rfl
    · have hp2 : hasUrl (rawFor provider now cfg c0) u = false := by
        simpa using hp
      have hfind2 :
          rest.find? (fun c => hasUrl (rawFor provider now cfg c) u)
            = some cf := by
        rw [List.find?_cons_of_neg
          (p := fun c => hasUrl (rawFor provider now cfg c) u) _
          (by simp [hp2])] at hfind
        exact hfind
      have hcfrest : cf ∈ rest := List.mem_of_find?_eq_some hfind2
      have hcfne : ¬ c0 = cf := fun he => hc0 (he ▸ hcfrest)
      cases h : lookupCat c0 with
      | none =>
        rw [runSimple_cons_unknown provider now cfg c0 rest seen h]
        exact runSimple_first_wins provider now cfg u rest seen cf
          hrest hseen hfind2
      | some kws =>
        rw [runSimple_cons_known provider now cfg c0 rest seen kws h]
        rw [rawFor_known provider now cfg c0 kws h] at hp2
        have hseen2 :
            ((dedupResults seen
                (search_category provider now c0 kws cfg)).2).contains u
              = false := by
          rw [dedup_seen, hseen, hp2]
          rfl
        have ih := runSimple_first_wins provider now cfg u rest _ cf
          hrest hseen2 hfind2
        constructor
        · rw [resLookup_cons_ne c0 cf _ _ hcfne]
          exact ih.1
        · intro c hne
          by_cases hcc : c0 = c
          · subst hcc
            rw [resLookup_cons_self, dedup_hasUrl, hp2]
            rfl
          · rw [resLookup_cons_ne c0 c _ _ hcc]
            exact ih.2 c hne

/-- Every value the dict-upsert result holds is the inserted value or a
value already in the dict. -/
theorem dictInsert_values (k : Str) (v : α) (d : List (Str × α)) :
    ∀ w ∈ (dictInsert k v d).map (fun p => p.2),
      w ∈ d.map (fun p => p.2) ∨ w = v := by
  intro w hw
  rw [dictInsert] at hw
  by_cases h : d.any (fun p => p.1 == k) = true
  · rw [if_pos h] at hw
    rcases List.mem_map.mp hw with ⟨p, hp, rfl⟩
    rcases List.mem_map.mp hp with ⟨q, hq, hqe⟩
    by_cases hqk : (q.1 == k) = true
    · right
      rw [if_pos hqk] at hqe
      rw [← hqe]
    · left
      rw [if_neg hqk] at hqe
      exact List.mem_map.mpr ⟨q, hq, by rw [← hqe]⟩
  · rw [if_neg h] at hw
    rcases List.mem_map.mp hw with ⟨p, hp, rfl⟩
    rcases List.mem_append.mp hp with hp1 | hp1
    · exact Or.inl (List.mem_map.mpr ⟨p, hp1, rfl⟩)
    · right
      rcases List.mem_singleton.mp hp1 with rfl
      rfl

/-- Every result list the category loop stores has pairwise-distinct
urls, provided the incoming dict already satisfies that. -/
theorem runCategories_values_nodup (provider : Provider) (now : Str)
    (cfg : SearchConfig) :
    ∀ (cats : List Str) (acc : List (Str × List SearchResult)) (seen : List Str),
      (∀ v ∈ acc.map (fun p => p.2), (v.map (fun r => r.url)).Nodup) →
      ∀ v ∈ (runCategories provider now cfg cats acc seen).map (fun p => p.2),
        (v.map (fun r => r.url)).Nodup
  | [], acc, seen, hacc => by
    rw [runCategories_nil]
    exact hacc
  | c :: rest, acc, seen, hacc => by
    cases h : lookupCat c with
    | none =>
      rw [runCategories_cons_unknown provider now cfg c rest acc seen h]
      exact runCategories_values_nodup provider now cfg rest acc seen hacc
    | some kws =>
      rw [runCategories_cons_known provider now cfg c rest acc seen kws h]
      apply runCategories_values_nodup provider now cfg rest _ _
      intro v hv
      rcases dictInsert_values c _ acc v hv with hv1 | hv1
      · exact hacc v hv1
      · rw [hv1]
        exact dedup_nodup seen _

/-- A category's entry in a ResultSet is empty or one of the stored
values. -/
theorem resLookup_cases (res : List (Str × List SearchResult)) (c : Str) :
    resLookup res c = [] ∨ resLookup res c ∈ res.map (fun p => p.2) := by
  rw [resLookup]
  cases hf : res.find? (fun p => p.1 == c) with
  | none => exact Or.inl rfl
  | some p =>
    exact Or.inr (List.mem_map.mpr ⟨p, List.mem_of_find?_eq_some hf, rfl⟩)

/-- With a non-empty API key, the whole run is the category loop started
from an empty dict and an empty seen set. -/
theorem search_all_eq_run (provider : Provider) (now : Str)
    (config : SearchConfig) (categories : Option (List Str))
    (hkey : ¬ config.serpapi_key = []) :
    search_all_categories provider now config categories
      = runCategories provider now config (resolveTargets categories) [] [] := by
  rw [search_all_categories, if_neg (by simp [hkey])]

/-- With a non-empty API key and distinct target names, the whole run is
the accumulator-free loop. -/
theorem search_all_eq_runSimple (provider : Provider) (now : Str)
    (config : SearchConfig) (categories : Option (List Str))
    (hkey : ¬ config.serpapi_key = [])
    (hnd : (resolveTargets categories).Nodup) :
    search_all_categories provider now config categories
      = runSimple provider now config (resolveTargets categories) [] := by
  rw [search_all_eq_run provider now config categories hkey,
    runCategories_append provider now config _ [] [] hnd
      (fun c _ => by simp)]
  rfl

/-! ### Lemmas about the capture engine -/

/-- A failure of the launch, navigation or screenshot step makes
`capture_screenshot` return failure, whatever the url, path and
configuration. -/
theorem capture_screenshot_fails (run : BrowserRun)
    (h : stepFails run.launch = true ∨ stepFails run.goto = true
      ∨ stepFails run.shot = true) :
    ∀ (url output_path : Str) (config : ScreenshotConfig),
      capture_screenshot run url output_path config = false := by
  intro url output_path config
  cases hl : run.launch with
  | error e => simp [capture_screenshot, hl]
  | ok v =>
    cases hg : run.goto with
    | error e => simp [capture_screenshot, hl, hg]
    | ok w =>
      cases hs : run.shot with
      | error e => simp [capture_screenshot, hl, hg, hs]
      | ok x =>
        rcases h with h1 | h1 | h1 <;>
          [rw [hl] at h1; rw [hg] at h1; rw [hs] at h1] <;>
          simp [stepFails] at h1

/-- A capture session whose every failable step succeeds makes
`capture_screenshot` return success: the inner `try` swallows the
dismissal outcome. -/
theorem capture_screenshot_ok (run : BrowserRun)
    (hl : stepFails run.launch = false) (hg : stepFails run.goto = false)
    (hs : stepFails run.shot = false) :
    ∀ (url output_path : Str) (config : ScreenshotConfig),
      capture_screenshot run url output_path config = true := by
  intro url output_path config
  cases hl2 : run.launch with
  | error e => rw [hl2] at hl; simp [stepFails] at hl
  | ok v =>
    cases hg2 : run.goto with
    | error e => rw [hg2] at hg; simp [stepFails] at hg
    | ok w =>
      cases hs2 : run.shot with
      | error e => rw [hs2] at hs; simp [stepFails] at hs
      | ok x => simp [capture_screenshot, hl2, hg2, hs2]

theorem captureLoop_nil (oracle : Str → BrowserRun) (config : ScreenshotConfig)
    (idx : Nat) (shots : List (Str × Option Str)) :
    captureLoop oracle config [] idx shots = shots := rfl

theorem captureLoop_cons (oracle : Str → BrowserRun) (config : ScreenshotConfig)
    (post : SearchResult) (rest : List SearchResult) (idx : Nat)
    (shots : List (Str × Option Str)) :
    captureLoop oracle config (post :: rest) idx shots
      = captureLoop oracle config rest (idx + 1)
          (dictInsert post.url
            (if capture_screenshot (oracle post.url) post.url
                  (capturePath config idx) config
             then some (capturePath config idx) else none) shots) := rfl

theorem captureSpec_nil (oracle : Str → BrowserRun) (config : ScreenshotConfig)
    (idx : Nat) :
    captureSpec oracle config [] idx = [] := rfl

theorem captureSpec_cons (oracle : Str → BrowserRun) (config : ScreenshotConfig)
    (post : SearchResult) (rest : List SearchResult) (idx : Nat) :
    captureSpec oracle config (post :: rest) idx
      = (post.url,
          if capture_screenshot (oracle post.url) post.url
                (capturePath config idx) config
          then some (capturePath config idx) else none)
          :: captureSpec oracle config rest (idx + 1) := rfl

/-- With pairwise-distinct post urls none of which occurs in the incoming
screenshots dict, the capture loop appends one entry per post. -/
theorem captureLoop_append (oracle : Str → BrowserRun)
    (config : ScreenshotConfig) :
    ∀ (posts : List SearchResult) (idx : Nat)
      (shots : List (Str × Option Str)),
      (posts.map (fun r => r.url)).Nodup →
      (∀ r ∈ posts, shots.any (fun p => p.1 == r.url) = false) →
      captureLoop oracle config posts idx shots
        = shots ++ captureSpec oracle config posts idx
  | [], idx, shots, _, _ => by
    rw [captureLoop_nil, captureSpec_nil, List.append_nil]
  | post :: rest, idx, shots, hnd, hfresh => by
    rw [List.map_cons] at hnd
    obtain ⟨hpu, hrest⟩ := List.nodup_cons.mp hnd
    rw [captureLoop_cons, captureSpec_cons,
      dictInsert_fresh post.url _ shots
        (hfresh post (List.mem_cons_self post rest)),
      captureLoop_append oracle config rest (idx + 1) _ hrest ?_]
    · simp [List.append_assoc]
    · intro r hr
      have h1 : shots.any (fun p => p.1 == r.url) = false :=
        hfresh r (List.mem_cons_of_mem post hr)
      have h2 : ¬ post.url = r.url := fun he =>
        hpu (he ▸ List.mem_map.mpr ⟨r, hr, rfl⟩)
      simp [h1, h2]

/-- The keys of the capture loop's dict: every post url, in order. -/
theorem captureSpec_keys (oracle : Str → BrowserRun)
    (config : ScreenshotConfig) :
    ∀ (posts : List SearchResult) (idx : Nat),
      (captureSpec oracle config posts idx).map (fun p => p.1)
        = posts.map (fun r => r.url)
  | [], _ => rfl
  | post :: rest, idx => by
    rw [captureSpec_cons, List.map_cons, List.map_cons,
      captureSpec_keys oracle config rest (idx + 1)]

/-- The entry at flattened position `i`: that post's url, mapped to the
sequential path on success and to the absence marker on failure. -/
theorem captureSpec_get (oracle : Str → BrowserRun)
    (config : ScreenshotConfig) :
    ∀ (posts : List SearchResult) (idx : Nat) (i : Nat)
      (hi : i < posts.length)
      (hj : i < (captureSpec oracle config posts idx).length),
      (captureSpec oracle config posts idx).get ⟨i, hj⟩
        = ((posts.get ⟨i, hi⟩).url,
           if capture_screenshot (oracle (posts.get ⟨i, hi⟩).url)
                (posts.get ⟨i, hi⟩).url (capturePath config (idx + i)) config
           then some (capturePath config (idx + i)) else none)
  | _ :: _, _, 0, _, _ => rfl
  | post :: rest, idx, i + 1, hi, hj => by
    have hi2 : i < rest.length := by simpa using hi
    have hj2 : i < (captureSpec oracle config rest (idx + 1)).length := by
      have hj3 := hj
      rw [captureSpec_cons] at hj3
      simpa using hj3
    have ih := captureSpec_get oracle config rest (idx + 1) i hi2 hj2
    have harith : idx + 1 + i = idx + (i + 1) := by omega
    rw [harith] at ih
    exact ih

theorem lookupShot_cons_self (a : Str) (v : Option Str)
    (rest : List (Str × Option Str)) :
    lookupShot ((a, v) :: rest) a = some v := by
  have hf : List.find? (fun p => p.1 == a) ((a, v) :: rest) = some (a, v) :=
    List.find?_cons_of_pos
      (p := fun q : Str × Option Str => q.1 == a) _ (by simp)
  rw [lookupShot, hf]
  rfl

theorem lookupShot_cons_ne (a c : Str) (v : Option Str)
    (rest : List (Str × Option Str)) (h : ¬ a = c) :
    lookupShot ((a, v) :: rest) c = lookupShot rest c := by
  rw [lookupShot, List.find?_cons_of_neg _ (by simp [h]), lookupShot]

/-- A url all of whose capture attempts fail is recorded with the absence
marker. -/
theorem lookupShot_captureSpec_fail (oracle : Str → BrowserRun)
    (config : ScreenshotConfig) (u : Str)
    (hfalse : ∀ pth, capture_screenshot (oracle u) u pth config = false) :
    ∀ (posts : List SearchResult) (idx : Nat),
      u ∈ posts.map (fun r => r.url) →
      lookupShot (captureSpec oracle config posts idx) u = some none
  | post :: rest, idx, hu => by
    rw [captureSpec_cons]
    by_cases hpu : post.url = u
    · rw [hpu, lookupShot_cons_self, hfalse]
      simp
    · rw [lookupShot_cons_ne _ _ _ _ hpu]
      have hu2 : u ∈ rest.map (fun r => r.url) := by
        rw [List.map_cons] at hu
        rcases List.mem_cons.mp hu with h1 | h1
        · exact absurd h1.symm hpu
        · exact h1
      exact lookupShot_captureSpec_fail oracle config u hfalse rest (idx + 1) hu2

/-- A url's recorded entry depends on the browser behaviour at that url
alone. -/
theorem lookupShot_oracle_local (config : ScreenshotConfig) (u : Str)
    (o1 o2 : Str → BrowserRun) (h : o1 u = o2 u) :
    ∀ (posts : List SearchResult) (idx : Nat),
      lookupShot (captureSpec o1 config posts idx) u
        = lookupShot (captureSpec o2 config posts idx) u
  | [], _ => rfl
  | post :: rest, idx => by
    rw [captureSpec_cons, captureSpec_cons]
    by_cases hpu : post.url = u
    · rw [hpu, lookupShot_cons_self, lookupShot_cons_self, h]
    · rw [lookupShot_cons_ne _ _ _ _ hpu, lookupShot_cons_ne _ _ _ _ hpu]
      exact lookupShot_oracle_local config u o1 o2 h rest (idx + 1)

/-! ### Claims -/

/-- Claim C1: cross-category dedup is first-occurrence-wins.  For any run
of `search_all_categories` (non-empty API key, distinct target names) and
any url `u` surfaced by some category's raw result list, let `cf` be the
first category in the caller-specified order whose raw list surfaces `u`
(the `find?`).  Then the returned ResultSet keeps `u` exactly in `cf`'s
list: it has `u` there and in no other category's list; in particular a
url raw-surfaced by two or more categories is kept only by the earliest
and dropped from every later one. -/
theorem c1_cross_category_first_wins (provider : Provider) (now : Str)
    (config : SearchConfig) (categories : Option (List Str)) (u cf : Str)
    (hkey : ¬ config.serpapi_key = [])
    (hnd : (resolveTargets categories).Nodup)
    (hfind : (resolveTargets categories).find?
        (fun c => hasUrl (rawFor provider now config c) u) = some cf) :
    hasUrl (resLookup (search_all_categories provider now config categories) cf)
        u = true
    ∧ ∀ c, ¬ c = cf →
        hasUrl (resLookup (search_all_categories provider now config categories) c)
          u = false := by
  rw [search_all_eq_runSimple provider now config categories hkey hnd]
  exact runSimple_first_wins provider now config u _ [] cf hnd rfl hfind

/-- Witness for C1: with a provider that returns the `abc` post for every
query, the url is raw-surfaced by both requested categories, kept by the
first (`BESS`) and dropped from the second (`Competition`). -/
theorem c1_witness :
    hasUrl (resLookup (search_all_categories cProv2 "now".toList cCfg
        (some ["BESS".toList, "Competition".toList])) "BESS".toList)
      "https://linkedin.com/posts/abc".toList = true
    ∧ hasUrl (resLookup (search_all_categories cProv2 "now".toList cCfg
        (some ["BESS".toList, "Competition".toList])) "Competition".toList)
      "https://linkedin.com/posts/abc".toList = false := by
  have h := c1_cross_category_first_wins cProv2 "now".toList cCfg
    (some ["BESS".toList, "Competition".toList])
    "https://linkedin.com/posts/abc".toList "BESS".toList
    (by decide) (by decide) (by decide)
  exact ⟨h.1, h.2 "Competition".toList (by decide)⟩

/-- Counterexample to claim C2 (dedup acts only across categories, never
within one): a provider returns the same linkedin url twice for the one
requested category; the raw `search_category` list holds both occurrences,
but the ResultSet entry for that category keeps only one — the in-loop
`seen_urls` update suppresses the second occurrence inside the same
category as well. -/
theorem c2_counterexample :
    ((search_category cProvDup "now".toList "BESS".toList
        ((lookupCat "BESS".toList).getD []) cCfg).map (fun r => r.url))
      = ["https://linkedin.com/posts/abc".toList,
         "https://linkedin.com/posts/abc".toList]
    ∧ (resLookup (search_all_categories cProvDup "now".toList cCfg
        (some ["BESS".toList])) "BESS".toList).length = 1 := by
  constructor
  · decide
  · decide

/-- Claim C2 as amended: dedup acts within a category as well as across
categories — every category's list in the returned ResultSet has
pairwise-distinct urls, so a url occurring twice in one category's raw
list is kept at most once (the first occurrence). -/
theorem c2_amended_no_duplicates_within_category (provider : Provider)
    (now : Str) (config : SearchConfig) (categories : Option (List Str))
    (c : Str) :
    ((resLookup (search_all_categories provider now config categories) c).map
        (fun r => r.url)).Nodup := by
  rw [search_all_categories]
  by_cases hk : config.serpapi_key.isEmpty = true
  · rw [if_pos hk]
    rw [resLookup_nil]
    exact List.nodup_nil
  · rw [if_neg hk]
    rcases resLookup_cases
        (runCategories provider now config (resolveTargets categories) [] [])
        c with h | h
    · rw [h]
      exact List.nodup_nil
    · exact runCategories_values_nodup provider now config _ [] []
        (by simp) _ h

/-- Counterexample to claim C3 (empty or all-unknown category list gives
zero results): with an empty category list the Python expression
`categories or list(KEYWORD_CATEGORIES.keys())` treats `[]` as falsy and
falls back to all configured categories, so a provider hit produces a
non-zero total. -/
theorem c3_counterexample :
    totalResults (search_all_categories cProvDup "now".toList cCfg
        (some [])) ≠ 0 := by
  decide

/-- Claim C3 as amended: a call whose (non-empty) category list contains
only unknown names yields an empty ResultSet with zero total results and
no error — unknown names are skipped, not fatal.  (An empty category
list, being falsy, instead selects all configured categories.) -/
theorem c3_amended_all_unknown_empty (provider : Provider) (now : Str)
    (config : SearchConfig) (cats : List Str)
    (hne : ¬ cats = [])
    (hunk : ∀ c ∈ cats, lookupCat c = none) :
    search_all_categories provider now config (some cats) = []
    ∧ totalResults (search_all_categories provider now config (some cats)) = 0 := by
  have he : search_all_categories provider now config (some cats) = [] := by
    rw [search_all_categories]
    by_cases hk : config.serpapi_key.isEmpty = true
    · rw [if_pos hk]
    · rw [if_neg hk]
      have ht : resolveTargets (some cats) = cats := by
        rw [resolveTargets, if_neg (by simp [hne])]
      rw [ht, runCategories_all_unknown provider now config cats [] [] hunk]
  exact ⟨he, by rw [he]; rfl⟩

/-- Witness for the amended C3 at a concrete unknown category name. -/
theorem c3_witness :
    search_all_categories cProvDup "now".toList cCfg (some ["nope".toList]) = []
    ∧ totalResults (search_all_categories cProvDup "now".toList cCfg
        (some ["nope".toList])) = 0 :=
  c3_amended_all_unknown_empty cProvDup "now".toList cCfg ["nope".toList]
    (by decide) (by decide)

/-- Claim C4: every `SearchResult` returned by `search_category` passes the
domain filter (its url contains `"linkedin.com"`), contains no `'?'`, and
its url is exactly the raw hit's link with the query-string portion
stripped (`url.split("?")[0]`, i.e. the characters before the first
`'?'`); hits whose cleaned link fails the domain test are skipped and
produce no result. -/
theorem c4_domain_filter_query_strip (provider : Provider) (now category : Str)
    (keywords : List Str) (config : SearchConfig) (r : SearchResult)
    (hr : r ∈ search_category provider now category keywords config) :
    strContains r.url linkedinDomain = true
    ∧ '?' ∉ r.url
    ∧ ∃ hits item,
        provider (mkSearchParams (build_search_query category keywords) config)
          = Except.ok hits
        ∧ item ∈ hits
        ∧ r.url = (item.link.getD []).takeWhile (fun ch => ch ≠ '?') := by
  simp only [search_category] at hr
  cases hprov : provider (mkSearchParams (build_search_query category keywords)
      config) with
  | error e =>
    rw [hprov] at hr
    simp at hr
  | ok organic =>
    rw [hprov] at hr
    obtain ⟨item, hitem, hparse⟩ := List.mem_filterMap.mp hr
    simp only [parseHit] at hparse
    by_cases hd : strContains (clean_linkedin_url (item.link.getD []))
        linkedinDomain = true
    · rw [if_pos hd] at hparse
      have hurl : r.url = clean_linkedin_url (item.link.getD []) := by
        rw [← Option.some.inj hparse]
      by_cases hdom0 : strContains (item.link.getD []) linkedinDomain = true
      · have hclean : clean_linkedin_url (item.link.getD [])
            = (item.link.getD []).takeWhile (fun ch => ch ≠ '?') := by
          rw [clean_linkedin_url, if_pos hdom0]
        refine ⟨by rw [hurl]; exact hd, ?_, organic, item, rfl, hitem, ?_⟩
        · intro hq
          rw [hurl, hclean] at hq
          have := List.mem_takeWhile_imp hq
          simp at this
        · rw [hurl, hclean]
      · exfalso
        have hclean : clean_linkedin_url (item.link.getD [])
            = item.link.getD [] := by
          rw [clean_linkedin_url, if_neg (by simp [hdom0])]
        rw [hclean] at hd
        exact hdom0 hd
    · rw [if_neg hd] at hparse
      cases hparse

/-- Witness for C4: the provider hit `cHit` carries a tracking query
string; the parsed result's url is the link truncated at `'?'`. -/
theorem c4_witness :
    strContains cR1.url linkedinDomain = true
    ∧ '?' ∉ cR1.url
    ∧ ∃ hits item,
        cProv2 (mkSearchParams (build_search_query "BESS".toList ["kw".toList])
            cCfg)
          = Except.ok hits
        ∧ item ∈ hits
        ∧ cR1.url = (item.link.getD []).takeWhile (fun ch => ch ≠ '?') :=
  c4_domain_filter_query_strip cProv2 "now".toList "BESS".toList
    ["kw".toList] cCfg cR1 (by decide)

/-- Claim C5: `search_all_categories` returns the early-abort empty
ResultSet exactly when the API key is absent (empty): with an empty key
the result is the empty dict for every provider — no provider request
influences it; with a non-empty key the run always proceeds to the
category loop, so no early-abort empty return occurs. -/
theorem c5_fail_fast_no_key (provider : Provider) (now : Str)
    (config : SearchConfig) (categories : Option (List Str)) :
    (config.serpapi_key = [] →
      search_all_categories provider now config categories = [])
    ∧ (¬ config.serpapi_key = [] →
      search_all_categories provider now config categories
        = runCategories provider now config (resolveTargets categories) [] []) := by
  constructor
  · intro h
    rw [search_all_categories, if_pos (by simp [h])]
  · intro h
    exact search_all_eq_run provider now config categories h

/-- Witness for C5: empty key aborts with the empty dict; non-empty key
reaches the category loop. -/
theorem c5_witness :
    search_all_categories cProvDup "now".toList cCfgNoKey none = []
    ∧ search_all_categories cProvDup "now".toList cCfg none
      = runCategories cProvDup "now".toList cCfg (resolveTargets none) [] [] :=
  ⟨(c5_fail_fast_no_key cProvDup "now".toList cCfgNoKey none).1 rfl,
   (c5_fail_fast_no_key cProvDup "now".toList cCfg none).2 (by decide)⟩

/-- Claim C6: a provider failure (raised transport/provider exception) for
a category does not escape `search_category` — the category yields the
empty list; and the run still produces an entry for every known target
category, so siblings proceed regardless of failures. -/
theorem c6_provider_failure_isolated (provider : Provider) (now category : Str)
    (keywords : List Str) (config : SearchConfig) (msg : Str)
    (hfail : provider (mkSearchParams (build_search_query category keywords)
        config) = Except.error msg) :
    search_category provider now category keywords config = []
    ∧ ∀ categories : Option (List Str), ¬ config.serpapi_key = [] →
        (resolveTargets categories).Nodup →
        (search_all_categories provider now config categories).map
            (fun p => p.1)
          = (resolveTargets categories).filter
              (fun c => (lookupCat c).isSome) := by
  constructor
  · simp only [search_category]
    rw [hfail]
  · intro categories hkey hnd
    rw [search_all_eq_runSimple provider now config categories hkey hnd,
      runSimple_keys]

/-- Witness for C6: an always-raising provider yields an empty category
list, and the run still stores an entry for the known target category
while skipping the unknown one. -/
theorem c6_witness :
    search_category cProvFail "now".toList "BESS".toList ["kw".toList] cCfg = []
    ∧ (search_all_categories cProvFail "now".toList cCfg
        (some ["BESS".toList, "nope".toList])).map (fun p => p.1)
      = ["BESS".toList] := by
  have h := c6_provider_failure_isolated cProvFail "now".toList "BESS".toList
    ["kw".toList] cCfg "boom".toList rfl
  refine ⟨h.1, ?_⟩
  rw [h.2 (some ["BESS".toList, "nope".toList]) (by decide) (by decide)]
  decide

/-- Counterexample to claim C7 (any exception at any step — navigation
timeout, crashed session, selector errors — makes `captureOne` return
failure): for the `xyz` post the popup-dismissal selector step raises
(`stepFails … .dismissal = true`) while launch, navigation and screenshot
succeed; the selector error is swallowed by the inner
`try/except Exception: pass` of `capture_screenshot` (screenshot.py lines
63-76), never reaches the top-level handler, and the capture returns
success — the outcome even records a file reference, not an absence
marker. -/
theorem c7_counterexample :
    stepFails (cOracle "https://linkedin.com/posts/xyz".toList).dismissal
      = true
    ∧ capture_screenshot (cOracle "https://linkedin.com/posts/xyz".toList)
        "https://linkedin.com/posts/xyz".toList "p".toList cShotCfg = true
    ∧ lookupShot (capture_all_screenshots cOracle cResults cShotCfg)
        "https://linkedin.com/posts/xyz".toList
      = some (some "shots/post_002.png".toList) := by
  refine ⟨rfl, rfl, ?_⟩
  decide

/-- Claim C7 as amended: a capture whose launch, navigation or screenshot
step raises (e.g. a navigation timeout) makes `capture_screenshot` return
failure for that url whatever the output path; in
`capture_all_screenshots` (distinct urls) that url is recorded with the
explicit absence marker; and any other url's recorded entry is unchanged
under any browser behaviour that agrees at that url — a failing capture
neither blocks nor alters sibling captures.  An exception of the
popup-dismissal selector step, however, is swallowed by the inner
`try/except`: whenever launch, navigation and screenshot succeed the
capture returns success, whatever the dismissal outcome. -/
theorem c7_amended_step_failure_isolated (oracle : Str → BrowserRun)
    (results : List (Str × List SearchResult)) (config : ScreenshotConfig)
    (u : Str)
    (hnd : (flatUrls results).Nodup)
    (hu : u ∈ flatUrls results)
    (hfail : stepFails (oracle u).launch = true
      ∨ stepFails (oracle u).goto = true
      ∨ stepFails (oracle u).shot = true) :
    (∀ output_path : Str,
      capture_screenshot (oracle u) u output_path config = false)
    ∧ lookupShot (capture_all_screenshots oracle results config) u = some none
    ∧ (∀ (oracle2 : Str → BrowserRun) (v : Str), ¬ v = u →
        oracle2 v = oracle v →
        lookupShot (capture_all_screenshots oracle2 results config) v
          = lookupShot (capture_all_screenshots oracle results config) v)
    ∧ ∀ (run : BrowserRun) (url output_path : Str),
        stepFails run.launch = false → stepFails run.goto = false →
        stepFails run.shot = false →
        capture_screenshot run url output_path config = true := by
  have hfalse := capture_screenshot_fails (oracle u) hfail
  have hbridge : capture_all_screenshots oracle results config
      = captureSpec oracle config (flatPosts results) 0 := by
    rw [capture_all_screenshots,
      captureLoop_append oracle config (flatPosts results) 0 [] hnd
        (fun r hr => by simp)]
    rfl
  refine ⟨fun pth => hfalse u pth config, ?_, ?_,
    fun run url pth h1 h2 h3 => capture_screenshot_ok run h1 h2 h3 url pth config⟩
  · rw [hbridge]
    exact lookupShot_captureSpec_fail oracle config u
      (fun pth => hfalse u pth config) (flatPosts results) 0 hu
  · intro o2 v hvu hagree
    have hbridge2 : capture_all_screenshots o2 results config
        = captureSpec o2 config (flatPosts results) 0 := by
      rw [capture_all_screenshots,
        captureLoop_append o2 config (flatPosts results) 0 [] hnd
          (fun r hr => by simp)]
      rfl
    rw [hbridge, hbridge2]
    exact lookupShot_oracle_local config v o2 oracle hagree (flatPosts results) 0

/-- Witness for the amended C7: navigation times out on the `abc` post; it
is recorded as the absence marker; the `xyz` post's entry is the same
under the everywhere-succeeding oracle that agrees with the failing one
at `xyz`; and the `xyz` capture succeeds although its dismissal step
raises a selector error. -/
theorem c7_witness :
    capture_screenshot (cOracle "https://linkedin.com/posts/abc".toList)
      "https://linkedin.com/posts/abc".toList "p".toList cShotCfg = false
    ∧ lookupShot (capture_all_screenshots cOracle cResults cShotCfg)
        "https://linkedin.com/posts/abc".toList = some none
    ∧ lookupShot (capture_all_screenshots cOracle2 cResults cShotCfg)
        "https://linkedin.com/posts/xyz".toList
      = lookupShot (capture_all_screenshots cOracle cResults cShotCfg)
        "https://linkedin.com/posts/xyz".toList
    ∧ capture_screenshot (cOracle "https://linkedin.com/posts/xyz".toList)
        "https://linkedin.com/posts/xyz".toList "p".toList cShotCfg = true := by
  have h := c7_amended_step_failure_isolated cOracle cResults cShotCfg
    "https://linkedin.com/posts/abc".toList (by decide) (by decide)
    (Or.inr (Or.inl (by decide)))
  exact ⟨h.1 "p".toList, h.2.1,
    h.2.2.1 cOracle2 "https://linkedin.com/posts/xyz".toList (by decide) rfl,
    h.2.2.2 (cOracle "https://linkedin.com/posts/xyz".toList)
      "https://linkedin.com/posts/xyz".toList "p".toList
      (by decide) (by decide) (by decide)⟩

/-- Claim C8: for a ResultSet with pairwise-distinct urls, the
CaptureOutcome has exactly one entry per url — its key list is exactly the
flattened url list, in order — and the entry at each position is that
post's url mapped either to the assigned sequential output path (capture
succeeded) or to the explicit absence marker (capture failed), never
missing and never both; entries exist for every url regardless of
failures, so failures do not abort the batch. -/
theorem c8_one_entry_per_url (oracle : Str → BrowserRun)
    (results : List (Str × List SearchResult)) (config : ScreenshotConfig)
    (hnd : (flatUrls results).Nodup) :
    (capture_all_screenshots oracle results config).map (fun p => p.1)
      = flatUrls results
    ∧ ∀ (i : Nat) (hi : i < (flatPosts results).length)
        (hj : i < (capture_all_screenshots oracle results config).length),
        (capture_all_screenshots oracle results config).get ⟨i, hj⟩
          = (((flatPosts results).get ⟨i, hi⟩).url,
             if capture_screenshot
                  (oracle ((flatPosts results).get ⟨i, hi⟩).url)
                  ((flatPosts results).get ⟨i, hi⟩).url
                  (capturePath config i) config
             then some (capturePath config i) else none) := by
  have hbridge : capture_all_screenshots oracle results config
      = captureSpec oracle config (flatPosts results) 0 := by
    rw [capture_all_screenshots,
      captureLoop_append oracle config (flatPosts results) 0 [] hnd
        (fun r hr => by simp)]
    rfl
  constructor
  · rw [hbridge, captureSpec_keys]
    rfl
  · intro i hi hj
    have hj2 : i < (captureSpec oracle config (flatPosts results) 0).length := by
      rw [hbridge] at hj
      exact hj
    have hstep := captureSpec_get oracle config (flatPosts results) 0 i hi hj2
    rw [Nat.zero_add] at hstep
    rw [List.get_of_eq hbridge ⟨i, hj⟩]
    exact hstep

/-- Witness for C8: on the two-post fixture the outcome's keys are the two
urls in order, and the first entry records the failed `abc` capture with
the absence marker. -/
theorem c8_witness :
    (capture_all_screenshots cOracle cResults cShotCfg).map (fun p => p.1)
      = flatUrls cResults
    ∧ (capture_all_screenshots cOracle cResults cShotCfg).get ⟨0, by decide⟩
      = ("https://linkedin.com/posts/abc".toList, none) := by
  have h := c8_one_entry_per_url cOracle cResults cShotCfg (by decide)
  exact ⟨h.1, (h.2 0 (by decide) (by decide)).trans (by decide)⟩

/-- Claim C9: for a non-empty keyword list the Query Builder's output
contains every keyword as a quoted exact phrase (the phrases joined by
`" OR "` via the intercalation in `build_search_query`) and contains the
site-restriction clause; as a Lean function it is deterministic and pure
by construction. -/
theorem c9_query_builder_output (category : Str) (keywords : List Str)
    (hne : ¬ keywords = []) :
    (∀ kw ∈ keywords,
      ('"' :: (kw ++ ['"'])) <:+: build_search_query category keywords)
    ∧ siteClause <:+: build_search_query category keywords :=
  ⟨fun kw hkw => quoted_infix_query category kw keywords hkw,
   site_clause_infix_query category keywords⟩

/-- Witness for C9 at a one-keyword list. -/
theorem c9_witness :
    ('"' :: ("BESS".toList ++ ['"']))
        <:+: build_search_query "X".toList ["BESS".toList]
    ∧ siteClause <:+: build_search_query "X".toList ["BESS".toList] := by
  have h := c9_query_builder_output "X".toList ["BESS".toList] (by decide)
  exact ⟨h.1 "BESS".toList (by decide), h.2⟩

/-- Claim C10: the Query Builder ignores the category name — any two
category names give the same query for the same keywords — and the
site-restriction clause is a fixed literal, so the `site_filter`
configuration field has no effect on any run of the search. -/
theorem c10_category_and_site_filter_ignored (c1 c2 : Str) (ks : List Str)
    (provider : Provider) (now : Str) (cfg : SearchConfig) (s : Str)
    (categories : Option (List Str)) :
    build_search_query c1 ks = build_search_query c2 ks
    ∧ search_all_categories provider now { cfg with site_filter := s }
        categories
      = search_all_categories provider now cfg categories := by
  refine ⟨rfl, ?_⟩
  simp only [search_all_categories]
  rw [runCategories_site_filter]
